import Mathlib

set_option maxHeartbeats 1000000

/-! Verification of the Director binding (src/src/director.cpp).

The file is a scripting-runtime binding over the cocos2d engine's
singleton Director.  Its own state consists of two static variables:
`director_using_scene`, a `std::vector<VALUE>` of retained scene
references created with 3 value-initialized (zero) entries, and
`mc_director_instance`, the cached singleton wrapper (initially Qnil).
Every method forwards to the engine; the scene-managing methods also
update the retained-reference vector and emit rb_retain / rb_release
calls.  We embed each binding function as a pure state transformer and
record the retain/release events it performs. -/

/-- Ruby VALUE handles are modelled as natural numbers; 0 is the content of a
value-initialized slot, matching the C++ zero-initialization of
`std::vector<VALUE>(3)` and the `*iter = 0` clearing in director_end. -/
abbrev Value := Nat

/-- Modelled from the spec: the false constant of the scripting runtime,
whose VALUE representation is 0. -/
def Qfalse : Value := 0

/-- Modelled from the spec: the nil constant of the scripting runtime,
a fixed VALUE representation distinct from Qfalse. -/
def Qnil : Value := 8

/-- Modelled from the spec: the RTEST truthiness coercion of the native
layer; a VALUE is truthy unless it is Qfalse or Qnil. -/
def RTEST (v : Value) : Bool := decide (v ≠ Qfalse) && decide (v ≠ Qnil)

/-- Modelled from the spec: the engine state visible through the binding —
the scene stack (bottom to top) and the settings the forwarding methods
read or write. -/
structure EngineState where
  stack : List Value
  paused : Bool
  animating : Bool
  displayStats : Bool
  contentScale : Value
  visibleOrigin : Value × Value
  visibleSize : Value × Value
  glviewHandle : Value
deriving Repr, DecidableEq

/-- The binding state of src/src/director.cpp: the static
`director_using_scene` vector of retained references, the static
`mc_director_instance` cache (`none` models the initial Qnil), and the
wrapped engine. -/
structure FullState where
  director_using_scene : List Value
  mc_director_instance : Option Value
  engine : EngineState
deriving Repr, DecidableEq

/-- Modelled from the spec: `runWithScene` runs the given scene, which
becomes the whole scene stack. -/
def engine_runWithScene (_stk : List Value) (s : Value) : List Value := [s]

/-- Modelled from the spec: `replaceScene` terminates the running (top)
scene and replaces it with the given one. -/
def engine_replaceScene (stk : List Value) (s : Value) : List Value :=
  stk.dropLast ++ [s]

/-- Modelled from the spec: `pushScene` suspends the running scene and
stacks the new scene on top. -/
def engine_pushScene (stk : List Value) (s : Value) : List Value := stk ++ [s]

/-- Modelled from the spec: `popScene` removes the top scene. -/
def engine_popScene (stk : List Value) : List Value := stk.dropLast

/-- Modelled from the spec: `end` ends execution, emptying the scene
stack. -/
def engine_endScenes (_stk : List Value) : List Value := []

/-- Result of one scene-managing binding call: the resulting state and the
VALUEs passed to rb_retain and to rb_release during the call, in order. -/
structure SceneOpResult where
  state : FullState
  retained : List Value
  released : List Value
deriving Repr, DecidableEq

/-- director_run: stores rb_retain(obj) into slot 0 — overwriting, not
releasing, the previous slot-0 value — and forwards runWithScene.
`vector::operator[]` on an empty vector is out of bounds, modelled as
`none`. -/
def director_run (st : FullState) (obj : Value) : Option SceneOpResult :=
  match st.director_using_scene with
  | [] => none
  | _ :: rest =>
    some ⟨{ st with
            director_using_scene := obj :: rest,
            engine := { st.engine with
                        stack := engine_runWithScene st.engine.stack obj } },
          [obj], []⟩

/-- director_replace: releases the previous slot-0 value, stores
rb_retain(obj) into slot 0, and forwards replaceScene. -/
def director_replace (st : FullState) (obj : Value) : Option SceneOpResult :=
  match st.director_using_scene with
  | [] => none
  | prev :: rest =>
    some ⟨{ st with
            director_using_scene := obj :: rest,
            engine := { st.engine with
                        stack := engine_replaceScene st.engine.stack obj } },
          [obj], [prev]⟩

/-- director_push: appends rb_retain(obj) to the vector and forwards
pushScene. -/
def director_push (st : FullState) (obj : Value) : SceneOpResult :=
  ⟨{ st with
     director_using_scene := st.director_using_scene ++ [obj],
     engine := { st.engine with
                 stack := engine_pushScene st.engine.stack obj } },
   [obj], []⟩

/-- director_pop: reads back(), pop_back()s it, releases it, and forwards
popScene.  back()/pop_back() on an empty vector are out of bounds,
modelled as `none`. -/
def director_pop (st : FullState) : Option SceneOpResult :=
  match st.director_using_scene.getLast? with
  | none => none
  | some last =>
    some ⟨{ st with
            director_using_scene := st.director_using_scene.dropLast,
            engine := { st.engine with
                        stack := engine_popScene st.engine.stack } },
          [], [last]⟩

/-- One pass of the director_end loop body over an entry: a non-zero entry
is released and set to 0; a zero entry is skipped. -/
def director_end_entry (v : Value) : Value := if v ≠ 0 then 0 else v

/-- director_end: walks the vector, releasing every non-zero entry and
setting it to 0 (the vector keeps its length), then forwards the engine
end. -/
def director_end (st : FullState) : SceneOpResult :=
  ⟨{ st with
     director_using_scene := st.director_using_scene.map director_end_entry,
     engine := { st.engine with
                 stack := engine_endScenes st.engine.stack } },
   [], st.director_using_scene.filter (fun v => decide (v ≠ 0))⟩

/-- director_instance: on the first call (cache still nil) constructs the
wrapper for the engine singleton, retains it, and caches it; afterwards it
returns the cached handle.  `fresh` is the wrapper the constructor would
produce; the Bool reports whether this call constructed and retained a
wrapper. -/
def director_instance (st : FullState) (fresh : Value) :
    FullState × Value × Bool :=
  match st.mc_director_instance with
  | none => ({ st with mc_director_instance := some fresh }, fresh, true)
  | some v => (st, v, false)

/-- director_pause: forwards pause to the engine. -/
def director_pause (st : FullState) : FullState :=
  { st with engine := { st.engine with paused := true } }

/-- director_resume: forwards resume to the engine. -/
def director_resume (st : FullState) : FullState :=
  { st with engine := { st.engine with paused := false } }

/-- director_start_animation: forwards startAnimation to the engine. -/
def director_start_animation (st : FullState) : FullState :=
  { st with engine := { st.engine with animating := true } }

/-- director_stop_animation: forwards stopAnimation to the engine. -/
def director_stop_animation (st : FullState) : FullState :=
  { st with engine := { st.engine with animating := false } }

/-- director_origin: returns the engine's visible origin; no state is
touched. -/
def director_origin (st : FullState) : FullState × (Value × Value) :=
  (st, st.engine.visibleOrigin)

/-- director_size: returns the engine's visible size; no state is
touched. -/
def director_size (st : FullState) : FullState × (Value × Value) :=
  (st, st.engine.visibleSize)

/-- director_show_stats_set: forwards setDisplayStats(RTEST(val)) and
returns val. -/
def director_show_stats_set (st : FullState) (val : Value) :
    FullState × Value :=
  ({ st with engine := { st.engine with displayStats := RTEST val } }, val)

/-- director_show_stats: returns the engine's display-stats flag. -/
def director_show_stats (st : FullState) : FullState × Bool :=
  (st, st.engine.displayStats)

/-- director_content_scale_factor: returns the engine's content scale. -/
def director_content_scale_factor (st : FullState) : FullState × Value :=
  (st, st.engine.contentScale)

/-- director_content_scale_factor_set: the NUM2DBL coercion of the native
layer may raise on a non-numeric argument (modelled by the `coerce`
parameter returning none); the binding itself adds no branch of its
own. -/
def director_content_scale_factor_set (coerce : Value → Option Value)
    (st : FullState) (scale : Value) : Option (FullState × Value) :=
  (coerce scale).map fun d =>
    ({ st with engine := { st.engine with contentScale := d } }, scale)

/-- director_glview: wraps the engine's glview in a fresh object; the
binding statics are untouched. -/
def director_glview (st : FullState) : FullState × Value :=
  (st, st.engine.glviewHandle)

/-- The scene-managing operations of the binding, as trace elements. -/
inductive DirOp where
  | run (s : Value)
  | replace (s : Value)
  | push (s : Value)
  | pop
  | endOp
deriving Repr, DecidableEq

/-- One scene-managing call, as a state transition (none models the
out-of-bounds vector accesses). -/
def step (st : FullState) : DirOp → Option FullState
  | .run s => (director_run st s).map SceneOpResult.state
  | .replace s => (director_replace st s).map SceneOpResult.state
  | .push s => some (director_push st s).state
  | .pop => (director_pop st).map SceneOpResult.state
  | .endOp => some (director_end st).state

/-- Runs a sequence of scene-managing calls from a state. -/
def execOps (st : FullState) : List DirOp → Option FullState
  | [] => some st
  | op :: ops =>
    match step st op with
    | none => none
    | some st1 => execOps st1 ops

/-- A concrete engine state used for concrete evaluations. -/
def defaultEngine : EngineState := ⟨[], false, false, false, 0, (0, 0), (0, 0), 0⟩

/-- Process-start state: `director_using_scene` holds its 3
value-initialized (zero) entries, the instance cache is nil, and the
engine scene stack is empty. -/
def initialState (eng : EngineState) : FullState :=
  ⟨[0, 0, 0], none, { eng with stack := [] }⟩

/-- Number of push operations in a trace. -/
def countPush (ops : List DirOp) : Nat :=
  ops.countP fun op => match op with | .push _ => true | _ => false

/-- Number of pop operations in a trace. -/
def countPop (ops : List DirOp) : Nat :=
  ops.countP fun op => match op with | .pop => true | _ => false

/-- Every entry of the list is the cleared value 0. -/
def allZero (l : List Value) : Prop := ∀ v ∈ l, v = 0

/-- No entry of the list is the cleared value 0. -/
def noZero (l : List Value) : Prop := ∀ v ∈ l, v ≠ 0

/-- Shape invariant relating the retained-reference vector to the engine
scene stack: the vector is a root slot, then all-zero padding, then the
pushed suffix, and the engine stack is the root (when set) followed by the
pushed scenes. -/
def MirrorInv (st : FullState) : Prop :=
  ∃ r zs ps, st.director_using_scene = r :: zs ++ ps ∧ allZero zs ∧ noZero ps ∧
    st.engine.stack = (if r = 0 then [] else [r]) ++ ps

/-- The invariant with no pushed suffix outstanding: the vector is the
root slot followed by zero padding only. -/
def RootOnly (st : FullState) : Prop :=
  ∃ r zs, st.director_using_scene = r :: zs ∧ allZero zs ∧
    st.engine.stack = if r = 0 then [] else [r]

/-- The invariant with a non-empty pushed suffix outstanding. -/
def HasPushed (st : FullState) : Prop :=
  ∃ r zs ps, st.director_using_scene = r :: zs ++ ps ∧ allZero zs ∧ noZero ps ∧
    ps ≠ [] ∧ st.engine.stack = (if r = 0 then [] else [r]) ++ ps

/-- The non-zero entries of the retained-reference vector, in order, equal
the engine scene stack bottom-to-top. -/
def matchesStack (st : FullState) : Prop :=
  st.director_using_scene.filter (fun v => decide (v ≠ 0)) = st.engine.stack

/-- Side condition under which the slot-0 discipline of run/replace and
the end-of-vector discipline of pop agree with the engine stack: run and
replace are used only with no pushed scene outstanding, pop only with at
least one. -/
def okCond (st : FullState) : DirOp → Prop
  | .run _ => RootOnly st
  | .replace _ => RootOnly st
  | .push _ => True
  | .pop => HasPushed st
  | .endOp => True

/-- Scene arguments are real object handles, hence non-zero. -/
def argNonzero : DirOp → Prop
  | .run s => s ≠ 0
  | .replace s => s ≠ 0
  | .push s => s ≠ 0
  | .pop => True
  | .endOp => True

/-! ### Helper lemmas -/

lemma director_end_entry_eq_zero (v : Value) : director_end_entry v = 0 := by
  by_cases h : v = 0 <;> simp [director_end_entry, h]

lemma filter_ne_zero_of_allZero {l : List Value} (h : allZero l) :
    l.filter (fun v => decide (v ≠ 0)) = [] := by
  rw [List.filter_eq_nil_iff]
  intro a ha
  simp [h a ha]

lemma filter_ne_zero_of_noZero {l : List Value} (h : noZero l) :
    l.filter (fun v => decide (v ≠ 0)) = l := by
  rw [List.filter_eq_self]
  intro a ha
  simp [h a ha]

lemma mirrorInv_matchesStack {st : FullState} (h : MirrorInv st) :
    matchesStack st := by
  obtain ⟨r, zs, ps, hsc, hz, hp, hstk⟩ := h
  unfold matchesStack
  rw [hsc, hstk, List.filter_append, List.filter_cons,
      filter_ne_zero_of_allZero hz, filter_ne_zero_of_noZero hp]
  by_cases hr : r = 0
  · simp [hr]
  · simp [hr]

lemma map_director_end_entry (l : List Value) :
    l.map director_end_entry = List.replicate l.length 0 := by
  induction l with
  | nil => rfl
  | cons a t ih => simp [director_end_entry_eq_zero, ih, List.replicate_succ]

lemma allZero_replicate (n : Nat) : allZero (List.replicate n 0) := by
  intro v hv
  exact List.eq_of_mem_replicate hv

/-! ### C2: run/replace and the slot-0 reference -/

/-- C2 counterexample: with scene 7 retained in slot 0, director_run with
scene 5 performs no rb_release at all, so the previously retained root
scene 7 is not released as the claim states. -/
theorem C2_counterexample :
    (director_run ⟨[7, 0, 0], none, defaultEngine⟩ 5).map SceneOpResult.released =
      some [] ∧ some ([] : List Value) ≠ some [7] := by
  constructor
  · rfl
  · decide

/-- C2 (amended): for every state whose vector is non-empty, replace
releases the previous slot-0 value and then retains the new scene into
slot 0; run retains the new scene into slot 0 WITHOUT releasing the
previous slot-0 value; both leave every other slot unchanged and forward
to the engine. -/
theorem C2_run_replace_slot_zero (st : FullState) (obj prev : Value)
    (rest : List Value) (h : st.director_using_scene = prev :: rest) :
    director_run st obj =
      some ⟨{ st with director_using_scene := obj :: rest,
                      engine := { st.engine with
                                  stack := engine_runWithScene st.engine.stack obj } },
            [obj], []⟩ ∧
    director_replace st obj =
      some ⟨{ st with director_using_scene := obj :: rest,
                      engine := { st.engine with
                                  stack := engine_replaceScene st.engine.stack obj } },
            [obj], [prev]⟩ := by
  constructor <;> simp [director_run, director_replace, h]

/-- Witness for C2: instantiation at slot 0 holding 7 and new scene 5. -/
theorem C2_run_replace_slot_zero_witness :
    (director_run ⟨[7, 0, 0], none, defaultEngine⟩ 5).map SceneOpResult.retained =
      some [5] ∧
    (director_replace ⟨[7, 0, 0], none, defaultEngine⟩ 5).map SceneOpResult.released =
      some [7] := by
  have h := C2_run_replace_slot_zero ⟨[7, 0, 0], none, defaultEngine⟩ 5 7 [0, 0] rfl
  rw [h.1, h.2]
  exact ⟨rfl, rfl⟩

/-! ### C3: push appends one retained reference -/

/-- C3: push appends exactly one retained reference (to the given scene)
at the end of the vector, releases nothing, and leaves every existing
entry, the vector prefix, and the instance cache unchanged. -/
theorem C3_push_appends (st : FullState) (obj : Value) :
    (director_push st obj).state.director_using_scene =
      st.director_using_scene ++ [obj] ∧
    (director_push st obj).retained = [obj] ∧
    (director_push st obj).released = [] ∧
    (director_push st obj).state.director_using_scene.take
        st.director_using_scene.length = st.director_using_scene ∧
    (director_push st obj).state.director_using_scene.length =
      st.director_using_scene.length + 1 ∧
    (director_push st obj).state.mc_director_instance =
      st.mc_director_instance ∧
    (director_push st obj).state.engine.stack =
      engine_pushScene st.engine.stack obj := by
  refine ⟨rfl, rfl, rfl, ?_, by simp [director_push], rfl, rfl⟩
  simp [director_push, List.take_left]

/-! ### C4: pop releases and removes the top entry -/

/-- C4: on a non-empty vector, pop releases exactly the last entry,
removes it — the length decreases by one and the remaining entries are
the unchanged prefix — and forwards popScene to the engine. -/
theorem C4_pop_top (st : FullState) (h : st.director_using_scene ≠ []) :
    ∃ last, st.director_using_scene.getLast? = some last ∧
      director_pop st =
        some ⟨{ st with
                director_using_scene := st.director_using_scene.dropLast,
                engine := { st.engine with
                            stack := engine_popScene st.engine.stack } },
              [], [last]⟩ ∧
      st.director_using_scene.dropLast.length + 1 =
        st.director_using_scene.length ∧
      st.director_using_scene.dropLast =
        st.director_using_scene.take (st.director_using_scene.length - 1) := by
  rcases List.eq_nil_or_concat st.director_using_scene with h0 | ⟨L, b, hb⟩
  · exact absurd h0 h
  · have hg : st.director_using_scene.getLast? = some b := by
      rw [hb, List.concat_eq_append, List.getLast?_concat]
    refine ⟨b, hg, ?_, ?_, List.dropLast_eq_take _⟩
    · simp [director_pop, hg]
    · rw [hb, List.concat_eq_append]
      simp

/-- Witness for C4: instantiation at the one-entry vector [7]. -/
theorem C4_pop_top_witness :
    ∃ last, (FullState.mk [7] none defaultEngine).director_using_scene.getLast? =
        some last ∧
      director_pop (FullState.mk [7] none defaultEngine) =
        some ⟨{ FullState.mk [7] none defaultEngine with
                director_using_scene :=
                  (FullState.mk [7] none defaultEngine).director_using_scene.dropLast,
                engine := { (FullState.mk [7] none defaultEngine).engine with
                            stack := engine_popScene
                              (FullState.mk [7] none defaultEngine).engine.stack } },
              [], [last]⟩ ∧
      (FullState.mk [7] none defaultEngine).director_using_scene.dropLast.length + 1 =
        (FullState.mk [7] none defaultEngine).director_using_scene.length ∧
      (FullState.mk [7] none defaultEngine).director_using_scene.dropLast =
        (FullState.mk [7] none defaultEngine).director_using_scene.take
          ((FullState.mk [7] none defaultEngine).director_using_scene.length - 1) :=
  C4_pop_top ⟨[7], none, defaultEngine⟩ (by decide)

/-! ### C5: the singleton accessor -/

/-- C5: the shared accessor constructs and retains the wrapper only while
the cache is still nil, caching the handle it returns; once cached, every
later call returns the same handle, constructs nothing, and leaves the
cache untouched. -/
theorem C5_instance_cached :
    (∀ st fresh, st.mc_director_instance = none →
      director_instance st fresh =
        ({ st with mc_director_instance := some fresh }, fresh, true)) ∧
    (∀ st fresh v, st.mc_director_instance = some v →
      director_instance st fresh = (st, v, false)) := by
  constructor
  · intro st fresh h
    simp [director_instance, h]
  · intro st fresh v h
    simp [director_instance, h]

/-- Witness for C5: first call caches the handle 4; a later call with a
different candidate wrapper 9 still returns 4 and changes nothing. -/
theorem C5_instance_cached_witness :
    director_instance ⟨[0, 0, 0], none, defaultEngine⟩ 4 =
      (⟨[0, 0, 0], some 4, defaultEngine⟩, 4, true) ∧
    director_instance ⟨[0, 0, 0], some 4, defaultEngine⟩ 9 =
      (⟨[0, 0, 0], some 4, defaultEngine⟩, 4, false) := by
  constructor
  · exact C5_instance_cached.1 ⟨[0, 0, 0], none, defaultEngine⟩ 4 rfl
  · exact C5_instance_cached.2 ⟨[0, 0, 0], some 4, defaultEngine⟩ 9 4 rfl

/-! ### C6: forwarding methods do not touch the binding statics -/

/-- The binding's own static state: the retained-reference vector and the
singleton cache. -/
def bindingStatics (st : FullState) : List Value × Option Value :=
  (st.director_using_scene, st.mc_director_instance)

/-- C6: pause, resume, start_animation, stop_animation, origin, size,
show_stats setter and getter, content_scale_factor getter and setter, and
glview each leave the retained-reference vector and the cached singleton
handle exactly as before the call. -/
theorem C6_forwarders_stateless :
    (∀ st, bindingStatics (director_pause st) = bindingStatics st) ∧
    (∀ st, bindingStatics (director_resume st) = bindingStatics st) ∧
    (∀ st, bindingStatics (director_start_animation st) = bindingStatics st) ∧
    (∀ st, bindingStatics (director_stop_animation st) = bindingStatics st) ∧
    (∀ st, (director_origin st).1 = st) ∧
    (∀ st, (director_size st).1 = st) ∧
    (∀ st val, bindingStatics (director_show_stats_set st val).1 =
      bindingStatics st) ∧
    (∀ st, (director_show_stats st).1 = st) ∧
    (∀ st, (director_content_scale_factor st).1 = st) ∧
    (∀ coerce st scale res,
      director_content_scale_factor_set coerce st scale = some res →
      bindingStatics res.1 = bindingStatics st) ∧
    (∀ st, (director_glview st).1 = st) := by
  refine ⟨fun st => rfl, fun st => rfl, fun st => rfl, fun st => rfl,
    fun st => rfl, fun st => rfl, fun st val => rfl, fun st => rfl,
    fun st => rfl, ?_, fun st => rfl⟩
  intro coerce st scale res h
  unfold director_content_scale_factor_set at h
  cases hc : coerce scale with
  | none => rw [hc] at h; simp at h
  | some d =>
    rw [hc] at h
    simp at h
    rw [← h]
    rfl

/-- Witness for C6: concrete instantiation, including the setter with a
succeeding coercion. -/
theorem C6_forwarders_stateless_witness :
    bindingStatics (director_pause ⟨[0, 0, 0], none, defaultEngine⟩) =
      bindingStatics ⟨[0, 0, 0], none, defaultEngine⟩ ∧
    bindingStatics
        ((⟨⟨[0, 0, 0], none, { defaultEngine with contentScale := 2 }⟩,
           (2 : Value)⟩ : FullState × Value)).1 =
      bindingStatics ⟨[0, 0, 0], none, defaultEngine⟩ := by
  refine ⟨C6_forwarders_stateless.1 ⟨[0, 0, 0], none, defaultEngine⟩, ?_⟩
  exact C6_forwarders_stateless.2.2.2.2.2.2.2.2.2.1 (fun v => some v)
    ⟨[0, 0, 0], none, defaultEngine⟩ 2
    ⟨⟨[0, 0, 0], none, { defaultEngine with contentScale := 2 }⟩, 2⟩ rfl

/-! ### C7: slot 0 versus the push/pop end of the vector -/

/-- C7: the vector starts with exactly 3 pre-allocated entries; run and
replace write only slot 0 and never change the length; push appends at
the end; pop removes at the end; end preserves the length — so only push
grows the vector. -/
theorem C7_slot_discipline :
    (∀ eng, (initialState eng).director_using_scene = [0, 0, 0] ∧
      (initialState eng).director_using_scene.length = 3) ∧
    (∀ st obj prev rest, st.director_using_scene = prev :: rest →
      (director_run st obj).map (fun r => r.state.director_using_scene) =
        some (obj :: rest) ∧
      (director_replace st obj).map (fun r => r.state.director_using_scene) =
        some (obj :: rest)) ∧
    (∀ st obj, (director_push st obj).state.director_using_scene =
      st.director_using_scene ++ [obj]) ∧
    (∀ st r, director_pop st = some r →
      r.state.director_using_scene = st.director_using_scene.dropLast) ∧
    (∀ st, (director_end st).state.director_using_scene.length =
      st.director_using_scene.length) := by
  refine ⟨fun eng => ⟨rfl, rfl⟩, ?_, fun st obj => rfl, ?_,
    fun st => by simp [director_end]⟩
  · intro st obj prev rest h
    constructor <;> simp [director_run, director_replace, h]
  · intro st r h
    unfold director_pop at h
    cases hg : st.director_using_scene.getLast? with
    | none => rw [hg] at h; simp at h
    | some last =>
      rw [hg] at h
      simp at h
      rw [← h]

/-- Witness for C7: run and replace on a vector whose slot 0 holds 7. -/
theorem C7_slot_discipline_witness :
    (director_run ⟨[7, 0, 0], none, defaultEngine⟩ 5).map
        (fun r => r.state.director_using_scene) = some (5 :: [0, 0]) ∧
    (director_replace ⟨[7, 0, 0], none, defaultEngine⟩ 5).map
        (fun r => r.state.director_using_scene) = some (5 :: [0, 0]) :=
  C7_slot_discipline.2.1 ⟨[7, 0, 0], none, defaultEngine⟩ 5 7 [0, 0] rfl

/-! ### C8: no error branch of the binding's own -/

/-- C8: the binding introduces no error branch, validation, or recovery of
its own: show_stats= completes for every argument, forwarding RTEST(val)
and returning val unchanged, and content_scale_factor= fails exactly when
the native NUM2DBL coercion fails, forwarding the coerced value when it
succeeds. -/
theorem C8_no_binding_errors :
    (∀ st val, (director_show_stats_set st val).2 = val ∧
      (director_show_stats_set st val).1.engine.displayStats = RTEST val) ∧
    (∀ coerce st scale,
      (director_content_scale_factor_set coerce st scale).isSome =
        (coerce scale).isSome) ∧
    (∀ coerce st scale d, coerce scale = some d →
      director_content_scale_factor_set coerce st scale =
        some ⟨{ st with engine := { st.engine with contentScale := d } },
              scale⟩) := by
  refine ⟨fun st val => ⟨rfl, rfl⟩, ?_, ?_⟩
  · intro coerce st scale
    unfold director_content_scale_factor_set
    cases coerce scale <;> rfl
  · intro coerce st scale d h
    simp [director_content_scale_factor_set, h]

/-- Witness for C8: the identity coercion succeeds on 2 and the setter
forwards it. -/
theorem C8_no_binding_errors_witness :
    director_content_scale_factor_set (fun v => some v)
        ⟨[0, 0, 0], none, defaultEngine⟩ 2 =
      some ⟨⟨[0, 0, 0], none, { defaultEngine with contentScale := 2 }⟩, 2⟩ :=
  C8_no_binding_errors.2.2 (fun v => some v) ⟨[0, 0, 0], none, defaultEngine⟩
    2 2 rfl

/-! ### C10: director_end is idempotent -/

/-- C10: end's release pass is idempotent: a second end in a row releases
no reference and leaves the whole state exactly as the first end left
it. -/
theorem C10_end_idempotent (st : FullState) :
    director_end (director_end st).state = ⟨(director_end st).state, [], []⟩ := by
  unfold director_end
  simp [engine_endScenes, map_director_end_entry, List.map_replicate,
        director_end_entry_eq_zero,
        filter_ne_zero_of_allZero (allZero_replicate st.director_using_scene.length)]

/-! ### C9: pop is safe exactly while the vector is non-empty -/

/-- Contribution of one operation to the vector length: push adds one
entry. -/
def pushWeight : DirOp → Nat
  | .push _ => 1
  | _ => 0

/-- Contribution of one operation to the vector length: pop removes one
entry. -/
def popWeight : DirOp → Nat
  | .pop => 1
  | _ => 0

lemma director_run_length {st : FullState} {obj : Value} {r : SceneOpResult}
    (h : director_run st obj = some r) :
    r.state.director_using_scene.length = st.director_using_scene.length := by
  cases hsc : st.director_using_scene with
  | nil => rw [director_run, hsc] at h; simp at h
  | cons a t =>
    rw [director_run, hsc] at h
    simp only [Option.some.injEq] at h
    rw [← h]
    simp

lemma director_replace_length {st : FullState} {obj : Value}
    {r : SceneOpResult} (h : director_replace st obj = some r) :
    r.state.director_using_scene.length = st.director_using_scene.length := by
  cases hsc : st.director_using_scene with
  | nil => rw [director_replace, hsc] at h; simp at h
  | cons a t =>
    rw [director_replace, hsc] at h
    simp only [Option.some.injEq] at h
    rw [← h]
    simp

lemma director_pop_length {st : FullState} {r : SceneOpResult}
    (h : director_pop st = some r) :
    r.state.director_using_scene.length + 1 =
      st.director_using_scene.length := by
  cases hg : st.director_using_scene.getLast? with
  | none => rw [director_pop, hg] at h; simp at h
  | some b =>
    rw [director_pop, hg] at h
    simp only [Option.some.injEq] at h
    have hne : st.director_using_scene ≠ [] := by
      intro h0
      rw [h0] at hg
      simp at hg
    have hpos : 0 < st.director_using_scene.length := List.length_pos.mpr hne
    rw [← h]
    simp only [List.length_dropLast]
    omega

lemma step_length {st st' : FullState} {op : DirOp}
    (h : step st op = some st') :
    st'.director_using_scene.length + popWeight op =
      st.director_using_scene.length + pushWeight op := by
  cases op with
  | run s =>
    simp only [step] at h
    cases hr : director_run st s with
    | none => rw [hr] at h; simp at h
    | some r =>
      rw [hr] at h
      simp only [Option.map_some', Option.some.injEq] at h
      rw [← h]
      simpa [popWeight, pushWeight] using director_run_length hr
  | replace s =>
    simp only [step] at h
    cases hr : director_replace st s with
    | none => rw [hr] at h; simp at h
    | some r =>
      rw [hr] at h
      simp only [Option.map_some', Option.some.injEq] at h
      rw [← h]
      simpa [popWeight, pushWeight] using director_replace_length hr
  | push s =>
    simp only [step, Option.some.injEq] at h
    rw [← h]
    simp [director_push, popWeight, pushWeight]
  | pop =>
    simp only [step] at h
    cases hr : director_pop st with
    | none => rw [hr] at h; simp at h
    | some r =>
      rw [hr] at h
      simp only [Option.map_some', Option.some.injEq] at h
      rw [← h]
      simpa [popWeight, pushWeight] using director_pop_length hr
  | endOp =>
    simp only [step, Option.some.injEq] at h
    rw [← h]
    simp [director_end, popWeight, pushWeight]

lemma execOps_length {ops : List DirOp} :
    ∀ {st0 st : FullState}, execOps st0 ops = some st →
      st.director_using_scene.length + countPop ops =
        st0.director_using_scene.length + countPush ops := by
  induction ops with
  | nil =>
    intro st0 st h
    simp only [execOps, Option.some.injEq] at h
    rw [← h]
    simp [countPop, countPush]
  | cons op ops ih =>
    intro st0 st h
    simp only [execOps] at h
    cases hs : step st0 op with
    | none => rw [hs] at h; simp at h
    | some st1 =>
      rw [hs] at h
      have h1 := ih h
      have h2 := step_length hs
      unfold countPop countPush at h1 ⊢
      rw [List.countP_cons, List.countP_cons]
      cases op <;> simp only [popWeight, pushWeight] at h2 <;> simp <;> omega

/-- C9: pop's back()/pop_back() accesses are in bounds exactly when the
vector is non-empty, and along every successfully executed trace the
vector length plus the pops equals the 3 initial entries plus the pushes,
so pop is safe precisely while the prior pops do not outrun the 3 initial
entries plus the prior pushes. -/
theorem C9_pop_precondition :
    (∀ st, director_pop st = none ↔ st.director_using_scene = []) ∧
    (∀ st, st.director_using_scene ≠ [] → (director_pop st).isSome) ∧
    (∀ eng ops st, execOps (initialState eng) ops = some st →
      st.director_using_scene.length + countPop ops =
        3 + countPush ops) := by
  refine ⟨?_, ?_, ?_⟩
  · intro st
    rw [← List.getLast?_eq_none_iff]
    unfold director_pop
    cases st.director_using_scene.getLast? <;> simp
  · intro st h
    unfold director_pop
    cases hg : st.director_using_scene.getLast? with
    | none => exact absurd (List.getLast?_eq_none_iff.mp hg) h
    | some a => rfl
  · intro eng ops st h
    have hlen := execOps_length h
    simpa [initialState] using hlen

/-- Witness for C9: the trace [push 5, pop] executes successfully from
process start and the length accounting holds at its final state. -/
theorem C9_pop_precondition_witness :
    (FullState.mk [0, 0, 0] none defaultEngine).director_using_scene.length +
        countPop [DirOp.push 5, DirOp.pop] =
      3 + countPush [DirOp.push 5, DirOp.pop] :=
  C9_pop_precondition.2.2 defaultEngine [DirOp.push 5, DirOp.pop]
    ⟨[0, 0, 0], none, defaultEngine⟩ (by decide)

/-! ### C1: the retained list against the engine scene stack -/

lemma rootOnly_mirrorInv {st : FullState} (h : RootOnly st) : MirrorInv st := by
  obtain ⟨r, zs, hsc, hz, hstk⟩ := h
  exact ⟨r, zs, [], by simp [hsc], hz, by intro v hv; simp at hv,
         by simp [hstk]⟩

/-- C1 counterexample: after the single operation run(5) from process
start the binding vector has 3 entries while the engine stack has 1, so
their lengths (and hence order) do not match; and immediately after end
the vector still holds its 3 zeroed slots, so the retained list is not
empty. -/
theorem C1_counterexample :
    (step (initialState defaultEngine) (DirOp.run 5)).map
        (fun st => (st.director_using_scene.length, st.engine.stack.length)) =
      some (3, 1) ∧ (3 : Nat) ≠ 1 ∧
    (step (initialState defaultEngine) DirOp.endOp).map
        FullState.director_using_scene = some [0, 0, 0] ∧
    ([0, 0, 0] : List Value) ≠ [] := by
  refine ⟨rfl, by decide, rfl, by decide⟩

/-- C1 (amended): the literal claim fails (the vector starts with 3 zero
slots and end only zeroes them), but the intended correspondence holds in
this form: starting from process start, as long as run/replace are used
only with no pushed scene outstanding and pop only with at least one
pushed scene outstanding (and scene handles are non-zero), every
operation succeeds and preserves the invariant that the NON-ZERO entries
of the vector, in order, equal the engine scene stack bottom-to-top;
after end, every entry of the vector is 0 while its length is
preserved. -/
theorem C1_stack_mirror :
    (∀ eng, MirrorInv (initialState eng) ∧ matchesStack (initialState eng)) ∧
    (∀ st op, MirrorInv st → okCond st op → argNonzero op →
      ∃ st', step st op = some st' ∧ MirrorInv st' ∧ matchesStack st' ∧
        (op = DirOp.endOp → allZero st'.director_using_scene ∧
          st'.director_using_scene.length =
            st.director_using_scene.length)) := by
  constructor
  · intro eng
    have hinv : MirrorInv (initialState eng) :=
      ⟨0, [0, 0], [], rfl, by intro v hv; simpa using hv,
       by intro v hv; simp at hv, rfl⟩
    exact ⟨hinv, mirrorInv_matchesStack hinv⟩
  · intro st op hInv hok harg
    cases op with
    | run s =>
      simp only [argNonzero] at harg
      obtain ⟨r, zs, hsc, hz, hstk⟩ := hok
      have hinv' : MirrorInv { st with
          director_using_scene := s :: zs,
          engine := { st.engine with
                      stack := engine_runWithScene st.engine.stack s } } :=
        ⟨s, zs, [], by simp, hz, by intro v hv; simp at hv,
         by simp [engine_runWithScene, harg]⟩
      refine ⟨_, ?_, hinv', mirrorInv_matchesStack hinv', by simp⟩
      simp [step, director_run, hsc]
    | replace s =>
      simp only [argNonzero] at harg
      obtain ⟨r, zs, hsc, hz, hstk⟩ := hok
      have hinv' : MirrorInv { st with
          director_using_scene := s :: zs,
          engine := { st.engine with
                      stack := engine_replaceScene st.engine.stack s } } := by
        refine ⟨s, zs, [], by simp, hz, by intro v hv; simp at hv, ?_⟩
        simp only [engine_replaceScene]
        rw [hstk]
        by_cases hr : r = 0 <;> simp [hr, harg]
      refine ⟨_, ?_, hinv', mirrorInv_matchesStack hinv', by simp⟩
      simp [step, director_replace, hsc]
    | push s =>
      simp only [argNonzero] at harg
      obtain ⟨r, zs, ps, hsc, hz, hp, hstk⟩ := hInv
      have hinv' : MirrorInv { st with
          director_using_scene := st.director_using_scene ++ [s],
          engine := { st.engine with
                      stack := engine_pushScene st.engine.stack s } } := by
        refine ⟨r, zs, ps ++ [s], ?_, hz, ?_, ?_⟩
        · simp [hsc]
        · intro v hv
          rcases List.mem_append.mp hv with h1 | h1
          · exact hp v h1
          · simp at h1
            rw [h1]
            exact harg
        · simp only [engine_pushScene]
          rw [hstk]
          simp
      exact ⟨_, rfl, hinv', mirrorInv_matchesStack hinv', by simp⟩
    | pop =>
      obtain ⟨r, zs, ps, hsc, hz, hp, hne, hstk⟩ := hok
      rcases List.eq_nil_or_concat ps with h0 | ⟨qs, b, hqs⟩
      · exact absurd h0 hne
      · rw [List.concat_eq_append] at hqs
        have hsc' : st.director_using_scene = (r :: (zs ++ qs)) ++ [b] := by
          rw [hsc, hqs]
          simp
        have hg : st.director_using_scene.getLast? = some b := by
          rw [hsc', List.getLast?_concat]
        have hdrop : st.director_using_scene.dropLast = r :: (zs ++ qs) := by
          rw [hsc', List.dropLast_concat]
        have hstk' : engine_popScene st.engine.stack =
            (if r = 0 then [] else [r]) ++ qs := by
          simp only [engine_popScene]
          rw [hstk, hqs, ← List.append_assoc, List.dropLast_concat]
        have hinv' : MirrorInv { st with
            director_using_scene := st.director_using_scene.dropLast,
            engine := { st.engine with
                        stack := engine_popScene st.engine.stack } } := by
          refine ⟨r, zs, qs, ?_, hz, ?_, ?_⟩
          · simp [hdrop]
          · intro v hv
            refine hp v ?_
            rw [hqs]
            exact List.mem_append.mpr (Or.inl hv)
          · simp [hstk']
        refine ⟨_, ?_, hinv', mirrorInv_matchesStack hinv', by simp⟩
        simp [step, director_pop, hg]
    | endOp =>
      obtain ⟨r, zs, ps, hsc, hz, hp, hstk⟩ := hInv
      have hpos : 0 < st.director_using_scene.length := by
        rw [hsc]
        simp
      have hinv' : MirrorInv { st with
          director_using_scene :=
            st.director_using_scene.map director_end_entry,
          engine := { st.engine with
                      stack := engine_endScenes st.engine.stack } } := by
        refine ⟨0, List.replicate (st.director_using_scene.length - 1) 0, [],
          ?_, allZero_replicate _, by intro v hv; simp at hv, ?_⟩
        · simp only [map_director_end_entry]
          rw [List.append_nil, ← List.replicate_succ]
          congr 1
          omega
        · simp [engine_endScenes]
      refine ⟨_, rfl, hinv', mirrorInv_matchesStack hinv', ?_⟩
      intro _
      constructor
      · simp only [director_end, map_director_end_entry]
        exact allZero_replicate _
      · simp [director_end]

/-- Witness for C1: the push step from process start preserves the mirror
invariant and the non-zero/stack correspondence. -/
theorem C1_stack_mirror_witness :
    ∃ st', step (initialState defaultEngine) (DirOp.push 5) = some st' ∧
      MirrorInv st' ∧ matchesStack st' ∧
      (DirOp.push 5 = DirOp.endOp → allZero st'.director_using_scene ∧
        st'.director_using_scene.length =
          (initialState defaultEngine).director_using_scene.length) :=
  C1_stack_mirror.2 (initialState defaultEngine) (DirOp.push 5)
    ⟨0, [0, 0], [], rfl, by intro v hv; simpa using hv,
     by intro v hv; simp at hv, rfl⟩
    True.intro (show (5 : Value) ≠ 0 by decide)
